import Mathlib

/-!
Shallow embedding of `logcat.cpp` (AsteroidOS/android_system_core, src/logcat/logcat.cpp).

The embedding models:
 * the rotating output sink (`rotateLogs`, `processBuffer`, `printBinary`,
   `setupOutput` and the global sink state),
 * the steady-state read loop's status handling (`classifyRead`),
 * the growing-buffer administrative query protocol (`adminLoopTrace`, `adminQuery`),
 * the device registry construction (`-b` handling, `all`, the default set),
 * the merge/multiplex loop with divider attribution (`maybePrintStart`, `loopStep`).

File contents are byte lists; the file system is a partial map from path names
to contents; machine integers that matter (read statuses) are `Int`.
-/

namespace Logcat

/-! ## Read-status classification (main loop, logcat.cpp lines 836-861)

`android_logger_list_read` returns `ret`.  The loop body:
  * `ret == 0`  -> "read: unexpected EOF!", exit(EXIT_FAILURE)
  * `ret < 0`:
      `ret == -EAGAIN` -> break (normal termination, process later returns 0)
      `ret == -EIO`    -> "read: unexpected EOF!", exit(EXIT_FAILURE)
      `ret == -EINVAL` -> "read: unexpected length.", exit(EXIT_FAILURE)
      otherwise        -> perror("logcat read failure"), exit(EXIT_FAILURE)
  * `ret > 0` -> process the record and continue.
-/

def EAGAIN : Int := 11
def EIOcode : Int := 5
def EINVAL : Int := 22

inductive ReadAction where
  | continueLoop : ReadAction
  | breakLoop : ReadAction
  | exitFailure : String → ReadAction
  deriving DecidableEq, Repr

def classifyRead (ret : Int) : ReadAction :=
  if ret = 0 then .exitFailure "read: unexpected EOF!"
  else if ret < 0 then
    if ret = -EAGAIN then .breakLoop
    else if ret = -EIOcode then .exitFailure "read: unexpected EOF!"
    else if ret = -EINVAL then .exitFailure "read: unexpected length."
    else .exitFailure "logcat read failure"
  else .continueLoop

/-- The process exit code produced by a terminal read action: a normal break
falls through to `return 0`; every `exit(EXIT_FAILURE)` yields 1. -/
def exitCodeOfAction : ReadAction → Option Nat
  | .continueLoop => none
  | .breakLoop => some 0
  | .exitFailure _ => some 1

/-! ## Growing-buffer administrative query protocol (logcat.cpp lines 764-817)

```
size_t len = 8192;
char *buf;
for (int retry = 32; (retry >= 0) && ((buf = new char [len])); delete [] buf, --retry) {
    <query service into buf, capacity len>
    buf[len-1] = 0;
    size_t ret = atol(buf) + 1;
    if (ret < 4) { delete [] buf; buf = NULL; break; }
    bool check = ret <= len;
    len = ret;
    if (check) break;
}
if (!buf) { perror("failed to read data"); exit(EXIT_FAILURE); }
<strip sentinel, print, exit(0)>
```

The service is abstracted by `svc : Nat → Nat`, giving the nonnegative leading
decimal count `atol(buf)` that the service's response carries when queried with
a buffer of a given capacity, and `alloc : Nat → Bool`, telling whether
`new char [len]` succeeds at a given size.  The trace records the capacity of
every attempted allocation. -/

/-- The `buf` pointer when the retry loop is left: `NULL`, a live allocation of
the recorded capacity, or a freed-but-non-NULL pointer (the `retry >= 0` test
fails after the update clause `delete [] buf` ran, short-circuiting past the
reassignment of `buf`). -/
inductive BufState where
  | null : BufState
  | live : Nat → BufState
  | dangling : BufState
  deriving DecidableEq, Repr

/-- One execution of the retry loop from a given remaining iteration budget
(`fuel` = allowed iterations left, initially 33 since `retry` counts 32 down
to 0 inclusive) and current `len`.  Returns the final `buf` state and the list
of capacities attempted. -/
def adminLoop (svc : Nat → Nat) (alloc : Nat → Bool) : Nat → Nat → BufState × List Nat
  | 0, _ => (.dangling, [])
  | fuel+1, len =>
    if alloc len then
      let ret := svc len + 1
      if ret < 4 then (.null, [len])
      else if ret ≤ len then (.live len, [len])
      else
        let p := adminLoop svc alloc fuel ret
        (p.1, len :: p.2)
    else (.null, [])

inductive AdminResult where
  | fatal : AdminResult
  | ok : Nat → AdminResult
  | undefinedBehavior : AdminResult
  deriving DecidableEq, Repr

/-- The whole `printStatistics || getPruneList` path: run the retry loop from
capacity 8192 with budget 32, then apply the `if (!buf)` check.  A live buffer
reaches the output code and `exit(0)`; a `NULL` buffer hits
`perror("failed to read data"); exit(EXIT_FAILURE)`; a dangling buffer is used
after free. -/
def adminQuery (svc : Nat → Nat) (alloc : Nat → Bool) : AdminResult × List Nat :=
  let p := adminLoop svc alloc 33 8192
  (match p.1 with
   | .null => .fatal
   | .live l => .ok l
   | .dangling => .undefinedBehavior, p.2)

def adminExitCode : AdminResult → Option Nat
  | .fatal => some 1
  | .ok _ => some 0
  | .undefinedBehavior => none

/-! ## File system and rotating output sink (logcat.cpp lines 56-122, 124-172, 190-210)

Files are byte lists (bytes as `Nat`); the file sytem is a partial map from
path names to contents.  `rename` failures other than `ENOENT` (permissions,
read-only fs, ...) are injected through a `faults` oracle; `openLogFile` is
`open(path, O_WRONLY|O_APPEND|O_CREAT, 0600)`, whose possible failure is
injected through an `openOk` flag. -/

def Fs : Type := String → Option (List Nat)

inductive RenameResult where
  | ok : RenameResult
  | enoent : RenameResult
  | otherErr : RenameResult
  deriving DecidableEq, Repr

/-- POSIX `rename(src, dst)`: moves `src` onto `dst` (replacing it); fails with
`ENOENT` when the source does not exist.  A faulted source fails with some
other errno, leaving the file system unchanged. -/
def fsRename (faults : String → Bool) (fs : Fs) (src dst : String) :
    Fs × RenameResult :=
  if faults src then (fs, .otherErr)
  else
    match fs src with
    | none => (fs, .enoent)
    | some c =>
      ((fun n => if n = src then none else if n = dst then some c else fs n), .ok)

/-- `open(path, O_WRONLY|O_APPEND|O_CREAT, ...)`: creates the file empty when
absent, keeps its contents when present (`openLogFile`, lines 64-67). -/
def openCreate (fs : Fs) (base : String) : Fs :=
  fun n => if n = base then some ((fs base).getD []) else fs n

/-- The decimal digit list of `n`, most significant first, zero-padded on the
left to width `w` — the characters `%.*d` produces for a positive value. -/
def zeroPadDigits (w n : Nat) : List Nat :=
  List.replicate (w - (Nat.digits 10 n).length) 0 ++ (Nat.digits 10 n).reverse

def digitChar (d : Nat) : Char := Char.ofNat (48 + d)

def zeroPad (w n : Nat) : String := String.mk ((zeroPadDigits w n).map digitChar)

/-- `(g_maxRotatedLogs > 0) ? (int)(floor(log10(g_maxRotatedLogs) + 1)) : 0`
(lines 82-83): the number of decimal digits needed to count up to `k`. -/
def maxRotationCountDigits (k : Nat) : Nat := if 0 < k then Nat.log 10 k + 1 else 0

/-- `asprintf(&file1, "%s.%.*d", g_outputFileName, maxRotationCountDigits, i)`. -/
def rotName (base : String) (w i : Nat) : String := base ++ "." ++ zeroPad w i

/-- The source name used for loop index `i`: the bare output name when
`i - 1 == 0`, else `name.(i-1)` (lines 90-94). -/
def srcName (base : String) (w i : Nat) : String :=
  if i - 1 = 0 then base else rotName base w (i - 1)

/-- The rename loop of `rotateLogs` (lines 85-104), for descending index `i`
from `k` down to `1`: rename `srcName i` to `rotName i`; `ENOENT` is ignored,
any other failure runs `perror("while rotating log files")` and the loop
continues.  Returns the final file system, the `perror` messages emitted, and
the `(src, dst)` pairs attempted in order. -/
def rotateShift (faults : String → Bool) (base : String) (w : Nat) :
    Nat → Fs → Fs × List String × List (String × String)
  | 0, fs => (fs, [], [])
  | i+1, fs =>
    let src := srcName base w (i+1)
    let dst := rotName base w (i+1)
    let p := fsRename faults fs src dst
    let q := rotateShift faults base w i p.1
    (q.1,
     (match p.2 with
      | .otherErr => ["while rotating log files"]
      | _ => []) ++ q.2.1,
     (src, dst) :: q.2.2)

/-- Global sink state: `g_outputFileName`, `g_logRotateSizeKBytes` (0 = no
rotation), `g_maxRotatedLogs`, the file system, what has been written to
stdout (the `g_outputFileName == NULL` destination), and `g_outByteCount`. -/
structure SinkState where
  outputFileName : Option String
  logRotateSizeKBytes : Nat
  maxRotatedLogs : Nat
  fs : Fs
  stdoutBuf : List Nat
  outByteCount : Nat

/-- `rotateLogs` (lines 69-115): a no-op when no output file is configured;
otherwise close the fd, run the rename shift, reopen the bare pathname
(`exit(-1)` — modelled as `none` — when that open fails) and reset
`g_outByteCount` to 0.  Also returns the `perror` messages of the shift. -/
def rotateLogs (faults : String → Bool) (openOk : Bool) (s : SinkState) :
    Option (SinkState × List String) :=
  match s.outputFileName with
  | none => some (s, [])
  | some base =>
    let w := maxRotationCountDigits s.maxRotatedLogs
    let p := rotateShift faults base w s.maxRotatedLogs s.fs
    if openOk then
      some ({ s with fs := openCreate p.1 base, outByteCount := 0 }, p.2.1)
    else none

/-- A successful `write` of `bytes` to `g_outFD`: appends to the configured
output file, or to stdout when none is configured.  Does not touch
`g_outByteCount`. -/
def writeOut (s : SinkState) (bytes : List Nat) : SinkState :=
  match s.outputFileName with
  | none => { s with stdoutBuf := s.stdoutBuf ++ bytes }
  | some base =>
    { s with
      fs := fun n => if n = base then some ((s.fs base).getD [] ++ bytes) else s.fs n }

/-- The outcome of the external decode/filter/format collaborators for one
record in formatted mode: whether `android_log_processLogBuffer` /
`android_log_processBinaryLogBuffer` succeeded (`err >= 0`), whether
`android_log_shouldPrintLine` accepts the entry, and the bytes
`android_log_printLogLine` renders for it. -/
structure RecordF where
  decodeOk : Bool
  shouldPrint : Bool
  line : List Nat
  deriving DecidableEq, Repr

/-- `processBuffer` (lines 124-172): on decode failure skip
(`goto error; return`); otherwise print the line when the filter accepts it,
add the bytes written to `g_outByteCount`, and rotate when
`g_logRotateSizeKBytes > 0 && (g_outByteCount / 1024) >= g_logRotateSizeKBytes`.
Returns `none` on `exit(-1)` inside rotation, else the new state and whether
rotation was triggered. -/
def processBuffer (faults : String → Bool) (openOk : Bool) (r : RecordF)
    (s : SinkState) : Option (SinkState × Bool) :=
  if r.decodeOk then
    let s1 := if r.shouldPrint then writeOut s r.line else s
    let written := if r.shouldPrint then r.line.length else 0
    let s2 := { s1 with outByteCount := s1.outByteCount + written }
    if 0 < s2.logRotateSizeKBytes ∧ s2.logRotateSizeKBytes ≤ s2.outByteCount / 1024
    then
      match rotateLogs faults openOk s2 with
      | none => none
      | some p => some (p.1, true)
    else some (s2, false)
  else some (s, false)

/-- `printBinary` (lines 117-122): write the raw record (its length field
included) verbatim to `g_outFD`; `g_outByteCount` is not touched. -/
def printBinaryRec (raw : List Nat) (s : SinkState) : SinkState := writeOut s raw

/-- Configuration relevant to the output sink, as accumulated by `getopt`. -/
structure Config where
  outputFileName : Option String
  logRotateSizeKBytes : Nat
  maxRotatedLogs : Nat

inductive SetupResult where
  | usageError : SetupResult
  | openFailure : SetupResult
  | sink : SinkState → SetupResult

/-- Lines 639-647: `-r` without `-f` prints usage and exits nonzero before
`setupOutput()` runs; otherwise `setupOutput` (lines 190-210) binds stdout or
opens the file (appending), initializing `g_outByteCount` from the existing
file's size (`fstat` / `st_size`). -/
def setupPhase (c : Config) (fs : Fs) (openOk : Bool) : SetupResult :=
  if c.logRotateSizeKBytes ≠ 0 ∧ c.outputFileName = none then .usageError
  else
    match c.outputFileName with
    | none => .sink ⟨none, c.logRotateSizeKBytes, c.maxRotatedLogs, fs, [], 0⟩
    | some base =>
      if openOk then
        let fs' := openCreate fs base
        .sink ⟨some base, c.logRotateSizeKBytes, c.maxRotatedLogs, fs', [],
               ((fs' base).getD []).length⟩
      else .openFailure

/-! ## Device registry (logcat.cpp lines 35-50, 452-497, 626-637) -/

/-- `log_device_t`: device name, binary flag, `printed` flag. -/
structure LogDev where
  device : String
  binary : Bool
  printed : Bool
  deriving DecidableEq, Repr

/-- Modelled from the spec: the canonical buffer identifiers of the external
log library (`liblog`'s `log_id_t` enumeration, which is part of this
repository but not under `src/`): a fixed enumeration order in which only
`events` carries binary payloads. -/
inductive LogId where
  | mainBuf : LogId
  | radioBuf : LogId
  | eventsBuf : LogId
  | systemBuf : LogId
  | crashBuf : LogId
  deriving DecidableEq, Repr

/-- Modelled from the spec: `android_log_id_to_name` of the external library —
the canonical name of each buffer identifier. -/
def logIdName : LogId → String
  | .mainBuf => "main"
  | .radioBuf => "radio"
  | .eventsBuf => "events"
  | .systemBuf => "system"
  | .crashBuf => "crash"

/-- Modelled from the spec: `android_name_to_log_id` — resolve a name back to
its canonical buffer identifier; unknown names resolve to nothing. -/
def nameToLogId (s : String) : Option LogId :=
  if s = "main" then some .mainBuf
  else if s = "radio" then some .radioBuf
  else if s = "events" then some .eventsBuf
  else if s = "system" then some .systemBuf
  else if s = "crash" then some .crashBuf
  else none

def allLogIds : List LogId := [.mainBuf, .radioBuf, .eventsBuf, .systemBuf, .crashBuf]

/-- One `-b` argument: an explicit buffer name, or `all`. -/
inductive BSelection where
  | name : String → BSelection
  | all : BSelection
  deriving DecidableEq, Repr

/-- `-b all` (lines 453-481): drop the current list and enumerate the
canonical identifiers, keeping those whose name round-trips through
`android_name_to_log_id`; `events` (and only it) is binary. -/
def selectAllDevs : List LogDev :=
  (allLogIds.filter (fun i => nameToLogId (logIdName i) == some i)).map
    (fun i => ⟨logIdName i, logIdName i == "events", false⟩)

/-- One `-b` option applied to `(devices, g_devCount)` (lines 452-497): an
explicit name is appended unconditionally; `all` replaces the registry. -/
def applyBSelection : List LogDev × Nat → BSelection → List LogDev × Nat
  | (devs, cnt), .name s => (devs ++ [⟨s, s == "events", false⟩], cnt + 1)
  | _, .all => (selectAllDevs, selectAllDevs.length)

/-- The default set (lines 626-637): `main`, then `system` and `crash` when
their names resolve to their own identifiers. -/
def defaultDevs : List LogDev :=
  ⟨"main", false, false⟩ ::
    ((if nameToLogId "system" = some .systemBuf then [⟨"system", false, false⟩] else [])
      ++ (if nameToLogId "crash" = some .crashBuf then [⟨"crash", false, false⟩] else []))

/-- The registry after all `-b` options: the default set when none produced a
device. -/
def buildRegistry (sels : List BSelection) : List LogDev × Nat :=
  let p := sels.foldl applyBSelection ([], 0)
  if p.1.isEmpty then (defaultDevs, defaultDevs.length) else p

def registryNames (devs : List LogDev) : List String := devs.map LogDev.device

/-! ## Merge/multiplex loop with divider attribution
    (logcat.cpp lines 174-188, 834-883) -/

/-- Identity of the device a record is attributed to: a registry index, or the
synthetic `unexpected` device. -/
inductive DevRef where
  | reg : Nat → DevRef
  | unexpected : DevRef
  deriving DecidableEq, Repr

/-- State of the steady-state loop: the registry (with `printed` flags), the
`printed` flag of the `unexpected` pseudo-device, the previously attributed
device (`dev`), `g_devCount`, the sink, the banners emitted so far (banner =
`(dev->printed at emission, dev->device)`, so `(false, X)` renders
"beginning of X" and `(true, X)` renders "switch to X"), and the number of
rotations triggered. -/
structure LoopState where
  devices : List LogDev
  unexpectedPrinted : Bool
  lastDev : Option DevRef
  devCount : Nat
  sink : SinkState
  banners : List (Bool × String)
  rotations : Nat

def devName (st : LoopState) : DevRef → String
  | .reg i => ((st.devices.get? i).map LogDev.device).getD ""
  | .unexpected => "unexpected"

def devPrinted (st : LoopState) : DevRef → Bool
  | .reg i => ((st.devices.get? i).map LogDev.printed).getD false
  | .unexpected => st.unexpectedPrinted

def markPrinted : List LogDev → Nat → List LogDev
  | [], _ => []
  | d :: ds, 0 => ⟨d.device, d.binary, true⟩ :: ds
  | d :: ds, n+1 => d :: markPrinted ds n

def setPrinted (st : LoopState) : DevRef → LoopState
  | .reg i => { st with devices := markPrinted st.devices i }
  | .unexpected => { st with unexpectedPrinted := true }

/-- `snprintf(buf, ..., "--------- %s %s\n", dev->printed ? "switch to" :
"beginning of", dev->device)`. -/
def bannerText (printed : Bool) (name : String) : String :=
  "--------- " ++ (if printed then "switch to" else "beginning of") ++ " " ++ name ++ "\n"

def strBytes (s : String) : List Nat := s.data.map Char.toNat

/-- `maybePrintStart(dev, printDividers)` (lines 174-188): when the device is
unannounced or dividers are forced, write the banner — but only when
`g_devCount > 1 && !g_printBinary` — and mark the device announced in every
case. -/
def maybePrintStart (printBin printDividers : Bool) (st : LoopState)
    (dref : DevRef) : LoopState :=
  if devPrinted st dref = false ∨ printDividers = true then
    let st1 :=
      if 1 < st.devCount ∧ printBin = false then
        { st with
          sink := writeOut st.sink (strBytes (bannerText (devPrinted st dref) (devName st dref))),
          banners := st.banners ++ [(devPrinted st dref, devName st dref)] }
      else st
    setPrinted st1 dref
  else st

/-- One incoming record: its buffer identifier, its raw wire bytes (length
field included), and the formatting collaborator's outcome for it. -/
structure Record where
  id : LogId
  raw : List Nat
  fmt : RecordF

/-- Lines 863-867: walk the registry and attribute the record to the first
device whose name resolves to the record's buffer id. -/
def resolveOwner (devs : List LogDev) (id : LogId) : Option Nat :=
  devs.findIdx? (fun d => nameToLogId d.device == some id)

/-- One iteration of the steady-state loop for a successfully read record
(lines 863-882): resolve the owner (an unmatched record selects the
`unexpected` pseudo-device and forces `g_devCount = 2`), call
`maybePrintStart` when attribution switches, then route the record to
`printBinary` or `processBuffer`.  `none` models `exit(-1)` inside rotation. -/
def loopStep (printBin printDividers : Bool) (faults : String → Bool)
    (openOk : Bool) (st : LoopState) (r : Record) : Option LoopState :=
  let dref : DevRef := match resolveOwner st.devices r.id with
    | some i => .reg i
    | none => .unexpected
  let st1 : LoopState := match resolveOwner st.devices r.id with
    | some _ => st
    | none => { st with devCount := 2 }
  let st2 : LoopState :=
    if st1.lastDev ≠ some dref then
      maybePrintStart printBin printDividers { st1 with lastDev := some dref } dref
    else st1
  if printBin then
    some { st2 with sink := printBinaryRec r.raw st2.sink }
  else
    match processBuffer faults openOk r.fmt st2.sink with
    | none => none
    | some p =>
      some { st2 with sink := p.1, rotations := st2.rotations + (if p.2 then 1 else 0) }

/-- The steady-state loop over a list of successfully read records. -/
def runLoop (printBin printDividers : Bool) (faults : String → Bool)
    (openOk : Bool) : LoopState → List Record → Option LoopState
  | st, [] => some st
  | st, r :: rs =>
    match loopStep printBin printDividers faults openOk st r with
    | none => none
    | some st' => runLoop printBin printDividers faults openOk st' rs

/-- Validity of a device reference against a loop state: a registry index in
range, or the always-present `unexpected` pseudo-device. -/
def drefValid (st : LoopState) : DevRef → Prop
  | .reg i => i < st.devices.length
  | .unexpected => True

/-- Every device carrying the name `nm` (the `unexpected` pseudo-device
included, whose name is `"unexpected"`) has already been announced. -/
def allNamedPrinted (nm : String) (st : LoopState) : Prop :=
  (∀ i d, st.devices.get? i = some d → d.device = nm → d.printed = true) ∧
  (nm = "unexpected" → st.unexpectedPrinted = true)

/-! ## Concrete fixtures used by witnesses -/

/-- A sink logging to `out` with `maxRotatedLogs = 2`, no size threshold, and
a file system in which every name exists with empty content. -/
def sinkOutFixture : SinkState := ⟨some "out", 0, 2, fun _ => some [], [], 5⟩

/-- A sink logging to `out` with a 1 KB rotation threshold, one backup, and
2000 bytes already accounted. -/
def sinkRotFixture : SinkState :=
  ⟨some "out", 1, 1, fun n => if n = "out" then some [7] else none, [], 2000⟩

/-- A plain stdout sink with no rotation policy. -/
def sinkPlain : SinkState := ⟨none, 0, 4, fun _ => none, [], 0⟩

/-- Records from the `main` / `radio` buffers whose formatted line is
filtered out. -/
def recMain : Record := ⟨.mainBuf, [], ⟨true, false, []⟩⟩

def recRadio : Record := ⟨.radioBuf, [], ⟨true, false, []⟩⟩

/-- Two registered text channels, none attributed yet. -/
def cexTwoChan : LoopState :=
  ⟨[⟨"main", false, false⟩, ⟨"system", false, false⟩], false, none, 2,
   sinkPlain, [], 0⟩

/-- The two-channel session after its first `main` record. -/
def stAfterMain : LoopState :=
  ⟨[⟨"main", false, true⟩, ⟨"system", false, false⟩], false, some (.reg 0), 2,
   sinkPlain, [(false, "main")], 0⟩

/-- A single-channel session: one registered channel, `g_devCount = 1`. -/
def stSolo : LoopState :=
  ⟨[⟨"main", false, false⟩], false, none, 1, sinkPlain, [], 0⟩

/-- A session whose `main` channel was attributed while banners were
suppressed (flag set, nothing announced for it), after an unexpected record
raised the device count to 2. -/
def stAnnounced : LoopState :=
  ⟨[⟨"main", false, true⟩], true, some .unexpected, 2, sinkPlain,
   [(false, "unexpected")], 0⟩

/-! # Theorems -/

/-! ## Helper lemmas: zero-padded decimal names are injective -/

theorem ofDigits_replicate_zero (b m : Nat) :
    Nat.ofDigits b (List.replicate m 0) = 0 := by
  induction m with
  | zero => simp
  | succ m ih => simp [List.replicate_succ, Nat.ofDigits_cons, ih]

theorem zeroPadDigits_inj {w i j : Nat}
    (h : zeroPadDigits w i = zeroPadDigits w j) : i = j := by
  have h' := congrArg List.reverse h
  simp only [zeroPadDigits, List.reverse_append, List.reverse_replicate,
    List.reverse_reverse] at h'
  have hi := congrArg (Nat.ofDigits 10) h'
  rw [Nat.ofDigits_append, Nat.ofDigits_append, ofDigits_replicate_zero,
    ofDigits_replicate_zero, Nat.ofDigits_digits, Nat.ofDigits_digits] at hi
  simpa using hi

theorem digitChar_toNat {d : Nat} (hd : d < 10) : (digitChar d).toNat = 48 + d := by
  interval_cases d <;> rfl

theorem map_digitChar_inj :
    ∀ {l1 l2 : List Nat}, (∀ x ∈ l1, x < 10) → (∀ x ∈ l2, x < 10) →
      l1.map digitChar = l2.map digitChar → l1 = l2
  | [], [], _, _, _ => rfl
  | [], _ :: _, _, _, h => by simp at h
  | _ :: _, [], _, _, h => by simp at h
  | a :: l1, b :: l2, h1, h2, h => by
    simp only [List.map_cons, List.cons.injEq] at h
    have ha : a < 10 := h1 a (by simp)
    have hb : b < 10 := h2 b (by simp)
    have hab : a = b := by
      have := congrArg Char.toNat h.1
      rw [digitChar_toNat ha, digitChar_toNat hb] at this
      omega
    have htl := map_digitChar_inj (fun x hx => h1 x (by simp [hx]))
      (fun x hx => h2 x (by simp [hx])) h.2
    rw [hab, htl]

theorem zeroPadDigits_lt (w n : Nat) : ∀ x ∈ zeroPadDigits w n, x < 10 := by
  intro x hx
  simp only [zeroPadDigits, List.mem_append, List.mem_replicate,
    List.mem_reverse] at hx
  rcases hx with ⟨_, rfl⟩ | hx
  · norm_num
  · exact Nat.digits_lt_base (by norm_num) hx

theorem zeroPad_inj {w i j : Nat} (h : zeroPad w i = zeroPad w j) : i = j := by
  apply zeroPadDigits_inj (w := w)
  apply map_digitChar_inj (zeroPadDigits_lt w i) (zeroPadDigits_lt w j)
  have hd := congrArg String.data h
  simpa [zeroPad] using hd

theorem strData_append (a b : String) : (a ++ b).data = a.data ++ b.data := rfl

theorem rotName_inj {base : String} {w i j : Nat}
    (h : rotName base w i = rotName base w j) : i = j := by
  have hd := congrArg String.data h
  simp only [rotName, strData_append] at hd
  have hz := List.append_cancel_left hd
  apply zeroPad_inj (w := w)
  have e1 : zeroPad w i = String.mk ((zeroPad w i).data) := rfl
  rw [e1, hz]

theorem base_ne_rotName (base : String) (w i : Nat) : base ≠ rotName base w i := by
  intro h
  have hd := congrArg String.data h
  simp only [rotName, strData_append] at hd
  have hl := congrArg List.length hd
  simp only [List.length_append, List.length_cons, List.length_nil] at hl
  omega

/-! ## Helper lemmas: the rename shift of `rotateLogs` -/

theorem srcName_succ (base : String) (w k : Nat) :
    srcName base w (k+1) = if k = 0 then base else rotName base w k := by
  simp [srcName]

theorem rotateShift_succ (faults : String → Bool) (base : String) (w k : Nat)
    (fs : Fs) :
    rotateShift faults base w (k+1) fs =
      ((rotateShift faults base w k
          (fsRename faults fs (srcName base w (k+1)) (rotName base w (k+1))).1).1,
       (match (fsRename faults fs (srcName base w (k+1)) (rotName base w (k+1))).2 with
        | RenameResult.otherErr => ["while rotating log files"]
        | _ => []) ++
         (rotateShift faults base w k
           (fsRename faults fs (srcName base w (k+1)) (rotName base w (k+1))).1).2.1,
       (srcName base w (k+1), rotName base w (k+1)) ::
         (rotateShift faults base w k
           (fsRename faults fs (srcName base w (k+1)) (rotName base w (k+1))).1).2.2) :=
  rfl

theorem fsRename_eq_of_ne (faults : String → Bool) (fs : Fs) (src dst n : String)
    (h1 : n ≠ src) (h2 : n ≠ dst) :
    (fsRename faults fs src dst).1 n = fs n := by
  unfold fsRename
  split
  · rfl
  · cases h : fs src with
    | none => rfl
    | some c => simp [h1, h2]

theorem fsRename_dst (faults : String → Bool) (fs : Fs) (src dst : String)
    (c : List Nat) (hf : faults src = false) (hsrc : fs src = some c)
    (hne : dst ≠ src) :
    (fsRename faults fs src dst).1 dst = some c := by
  unfold fsRename
  rw [hf]
  simp [hsrc, hne]

theorem fsRename_src_none (faults : String → Bool) (fs : Fs) (src dst : String)
    (c : List Nat) (hf : faults src = false) (hsrc : fs src = some c) :
    (fsRename faults fs src dst).1 src = none := by
  unfold fsRename
  rw [hf]
  simp [hsrc]

theorem srcName_ne_rotNameG (base : String) (w i j : Nat) (h1 : 1 ≤ i)
    (hij : i ≤ j) : srcName base w i ≠ rotName base w j := by
  unfold srcName
  by_cases h : i - 1 = 0
  · simp only [h, if_pos]
    exact base_ne_rotName base w j
  · simp only [h, if_neg]
    intro hcon
    have := rotName_inj hcon
    omega

theorem srcName_ne_srcName (base : String) (w i j : Nat) (h1 : 1 ≤ i)
    (h2 : 1 ≤ j) (hij : i ≠ j) : srcName base w i ≠ srcName base w j := by
  unfold srcName
  by_cases ha : i - 1 = 0 <;> by_cases hb : j - 1 = 0
  · omega
  · simp only [ha, hb, if_pos, if_neg]
    exact base_ne_rotName base w (j - 1)
  · simp only [ha, hb, if_pos, if_neg]
    exact (base_ne_rotName base w (i - 1)).symm
  · simp only [ha, hb, if_neg]
    intro hcon
    have := rotName_inj hcon
    omega

theorem rotateShift_frame (faults : String → Bool) (base : String) (w : Nat) :
    ∀ (k : Nat) (fs : Fs) (n : String), n ≠ base →
      (∀ i, 1 ≤ i → i ≤ k → n ≠ rotName base w i) →
      (rotateShift faults base w k fs).1 n = fs n := by
  intro k
  induction k with
  | zero => intro fs n _ _; rfl
  | succ k ih =>
    intro fs n hnb hnr
    rw [rotateShift_succ]
    dsimp only
    rw [ih _ n hnb (fun i hi1 hik => hnr i hi1 (by omega))]
    apply fsRename_eq_of_ne
    · rw [srcName_succ]
      split
      · exact hnb
      · next hk0 => exact hnr k (by omega) (by omega)
    · exact hnr (k+1) (by omega) le_rfl

theorem rotateShift_base_moved (base : String) (w : Nat) :
    ∀ (k : Nat) (fs : Fs) (c : List Nat), 1 ≤ k → fs base = some c →
      (rotateShift (fun _ => false) base w k fs).1 (rotName base w 1) = some c ∧
      (rotateShift (fun _ => false) base w k fs).1 base = none := by
  intro k
  induction k with
  | zero => intro fs c h _; omega
  | succ k ih =>
    intro fs c _ hbase
    rw [rotateShift_succ]
    dsimp only
    by_cases hk0 : k = 0
    · subst hk0
      have hsrc1 : srcName base w 1 = base := by simp [srcName]
      have hid : ∀ fsx : Fs,
          (rotateShift (fun _ => false) base w 0 fsx).1 = fsx := fun _ => rfl
      rw [hid]
      constructor
      · rw [hsrc1]
        exact fsRename_dst _ fs base (rotName base w 1) c rfl hbase
          (Ne.symm (base_ne_rotName base w 1))
      · have := fsRename_src_none (fun _ => false) fs (srcName base w 1)
          (rotName base w 1) c rfl (by rw [hsrc1]; exact hbase)
        rwa [hsrc1] at this
    · have hne1 : (fsRename (fun _ => false) fs (srcName base w (k+1))
          (rotName base w (k+1))).1 base = some c := by
        rw [fsRename_eq_of_ne]
        · exact hbase
        · rw [srcName_succ]
          split
          · next h => exact absurd h hk0
          · exact base_ne_rotName base w k
        · exact base_ne_rotName base w (k+1)
      exact ih _ c (by omega) hne1

theorem rotateShift_content (base : String) (w : Nat) :
    ∀ (k : Nat) (fs : Fs),
      (∀ i, 1 ≤ i → i ≤ k → (fs (srcName base w i)).isSome) →
      (∀ i, 1 ≤ i → i ≤ k →
        (rotateShift (fun _ => false) base w k fs).1 (rotName base w i)
          = fs (srcName base w i)) ∧
      (1 ≤ k → (rotateShift (fun _ => false) base w k fs).1 base = none) := by
  intro k
  induction k with
  | zero =>
    intro fs _
    exact ⟨fun i hi1 hik => by omega, fun h => by omega⟩
  | succ k ih =>
    intro fs hsrc
    obtain ⟨c, hc⟩ := Option.isSome_iff_exists.mp (hsrc (k+1) (by omega) le_rfl)
    have hds : rotName base w (k+1) ≠ srcName base w (k+1) :=
      Ne.symm (srcName_ne_rotNameG base w (k+1) (k+1) (by omega) le_rfl)
    have hpres : ∀ i, 1 ≤ i → i ≤ k →
        (fsRename (fun _ => false) fs (srcName base w (k+1))
          (rotName base w (k+1))).1 (srcName base w i) = fs (srcName base w i) := by
      intro i hi1 hik
      apply fsRename_eq_of_ne
      · exact srcName_ne_srcName base w i (k+1) hi1 (by omega) (by omega)
      · exact srcName_ne_rotNameG base w i (k+1) hi1 (by omega)
    have hsrc' : ∀ i, 1 ≤ i → i ≤ k →
        (((fsRename (fun _ => false) fs (srcName base w (k+1))
          (rotName base w (k+1))).1) (srcName base w i)).isSome := by
      intro i hi1 hik
      rw [hpres i hi1 hik]
      exact hsrc i hi1 (by omega)
    obtain ⟨IH1, IH2⟩ := ih _ hsrc'
    rw [rotateShift_succ]
    dsimp only
    constructor
    · intro i hi1 hik1
      by_cases hik : i ≤ k
      · rw [IH1 i hi1 hik, hpres i hi1 hik]
      · have hi : i = k+1 := by omega
        subst hi
        rw [rotateShift_frame (fun _ => false) base w k _ (rotName base w (k+1))
          (Ne.symm (base_ne_rotName base w (k+1)))
          (fun j hj1 hjk hcon => by have := rotName_inj hcon; omega)]
        rw [fsRename_dst _ _ _ _ c rfl hc hds, hc]
    · intro _
      by_cases hk0 : k = 0
      · subst hk0
        have hsrc1 : srcName base w 1 = base := by simp [srcName]
        have hid : ∀ fsx : Fs,
            (rotateShift (fun _ => false) base w 0 fsx).1 = fsx := fun _ => rfl
        rw [hid]
        have := fsRename_src_none (fun _ => false) fs (srcName base w 1)
          (rotName base w 1) c rfl hc
        rwa [hsrc1] at this
      · exact IH2 (by omega)

theorem rotateShift_attempts (faults : String → Bool) (base : String) (w : Nat) :
    ∀ (k : Nat) (fs : Fs),
      (rotateShift faults base w k fs).2.2 =
        (List.range k).reverse.map
          (fun j => (srcName base w (j+1), rotName base w (j+1))) := by
  intro k
  induction k with
  | zero => intro fs; rfl
  | succ k ih =>
    intro fs
    rw [rotateShift_succ]
    dsimp only
    rw [ih, List.range_succ, List.reverse_append]
    simp

theorem fsRename_err_msg (faults : String → Bool) (fs : Fs) (src dst : String) :
    (match (fsRename faults fs src dst).2 with
     | RenameResult.otherErr => ["while rotating log files"]
     | _ => []) =
      if faults src then ["while rotating log files"] else [] := by
  unfold fsRename
  by_cases h : faults src
  · simp [h]
  · cases hs : fs src <;> simp [h, hs]

theorem rotateShift_errs (faults : String → Bool) (base : String) (w : Nat) :
    ∀ (k : Nat) (fs : Fs),
      (rotateShift faults base w k fs).2.1 =
        ((List.range k).reverse.filter
          (fun j => faults (srcName base w (j+1)))).map
            (fun _ => "while rotating log files") := by
  intro k
  induction k with
  | zero => intro fs; rfl
  | succ k ih =>
    intro fs
    rw [rotateShift_succ]
    dsimp only
    rw [ih, fsRename_err_msg, List.range_succ, List.reverse_append]
    by_cases h : faults (srcName base w (k+1))
    · simp [h, List.filter]
    · simp [h, List.filter]

/-! ## Helper lemmas: the sink -/

theorem rotateLogs_eq (faults : String → Bool) (openOk : Bool) (s : SinkState)
    (base : String) (hname : s.outputFileName = some base) :
    rotateLogs faults openOk s =
      if openOk then
        some ({ s with
                fs := openCreate
                  (rotateShift faults base (maxRotationCountDigits s.maxRotatedLogs)
                    s.maxRotatedLogs s.fs).1 base,
                outByteCount := 0 },
          (rotateShift faults base (maxRotationCountDigits s.maxRotatedLogs)
            s.maxRotatedLogs s.fs).2.1)
      else none := by
  unfold rotateLogs
  rw [hname]

theorem writeOut_outputFileName (s : SinkState) (b : List Nat) :
    (writeOut s b).outputFileName = s.outputFileName := by
  unfold writeOut
  cases s.outputFileName <;> rfl

theorem writeOut_logRotate (s : SinkState) (b : List Nat) :
    (writeOut s b).logRotateSizeKBytes = s.logRotateSizeKBytes := by
  unfold writeOut
  cases s.outputFileName <;> rfl

theorem writeOut_maxRotated (s : SinkState) (b : List Nat) :
    (writeOut s b).maxRotatedLogs = s.maxRotatedLogs := by
  unfold writeOut
  cases s.outputFileName <;> rfl

theorem writeOut_outByteCount (s : SinkState) (b : List Nat) :
    (writeOut s b).outByteCount = s.outByteCount := by
  unfold writeOut
  cases s.outputFileName <;> rfl

theorem writeOut_fs_base (s : SinkState) (b : List Nat) (base : String)
    (hname : s.outputFileName = some base) :
    (writeOut s b).fs base = some ((s.fs base).getD [] ++ b) := by
  unfold writeOut
  rw [hname]
  simp

theorem writeOut_fs_ne (s : SinkState) (b : List Nat) (base n : String)
    (hname : s.outputFileName = some base) (hne : n ≠ base) :
    (writeOut s b).fs n = s.fs n := by
  unfold writeOut
  rw [hname]
  simp [hne]

theorem adminLoop_succ (svc : Nat → Nat) (alloc : Nat → Bool) (fuel len : Nat) :
    adminLoop svc alloc (fuel+1) len =
      if alloc len then
        if svc len + 1 < 4 then (.null, [len])
        else if svc len + 1 ≤ len then (.live len, [len])
        else
          let p := adminLoop svc alloc fuel (svc len + 1)
          (p.1, len :: p.2)
      else (.null, []) := rfl

/-- C3: In the steady-state read loop, `-EAGAIN` is the only status that ends
the loop normally (exit code 0); a zero return, `-EIO`, `-EINVAL`, and every
other negative status exit the process with a nonzero code. -/
theorem readLoop_status_classification (ret : Int) :
    (classifyRead ret = .breakLoop ↔ ret = -EAGAIN) ∧
    (exitCodeOfAction .breakLoop = some 0) ∧
    (ret = 0 → exitCodeOfAction (classifyRead ret) = some 1) ∧
    (ret < 0 → ret ≠ -EAGAIN → exitCodeOfAction (classifyRead ret) = some 1) ∧
    (0 < ret → classifyRead ret = .continueLoop) := by
  unfold classifyRead EAGAIN EIOcode EINVAL
  refine ⟨?_, rfl, ?_, ?_, ?_⟩
  · constructor
    · intro h
      by_cases h0 : ret = 0
      · simp [h0] at h
      · by_cases hneg : ret < 0
        · by_cases hea : ret = -11
          · exact hea
          · by_cases hio : ret = -5 <;> by_cases hin : ret = -22 <;>
              simp [h0, hneg, hea, hio, hin] at h
        · simp [h0, hneg] at h
    · intro h
      subst h
      norm_num
  · intro h
    simp [h, exitCodeOfAction]
  · intro hneg hne
    have h0 : ret ≠ 0 := by omega
    by_cases hio : ret = -5 <;> by_cases hin : ret = -22 <;>
      simp [h0, hneg, hne, hio, hin, exitCodeOfAction]
  · intro h
    have h0 : ret ≠ 0 := by omega
    have hneg : ¬ ret < 0 := by omega
    simp [h0, hneg]

/-- Witness for C3 at concrete statuses. -/
theorem readLoop_status_classification_witness :
    exitCodeOfAction (classifyRead 0) = some 1 ∧
    classifyRead (-11) = .breakLoop ∧
    exitCodeOfAction (classifyRead (-5)) = some 1 ∧
    exitCodeOfAction (classifyRead (-22)) = some 1 ∧
    exitCodeOfAction (classifyRead (-7)) = some 1 := by
  refine ⟨?_, ?_, ?_, ?_, ?_⟩
  · exact (readLoop_status_classification 0).2.2.1 rfl
  · exact (readLoop_status_classification (-11)).1.mpr rfl
  · exact (readLoop_status_classification (-5)).2.2.2.1 (by norm_num) (by decide)
  · exact (readLoop_status_classification (-22)).2.2.2.1 (by norm_num) (by decide)
  · exact (readLoop_status_classification (-7)).2.2.2.1 (by norm_num) (by decide)

/-- C4: each retry grows the buffer to exactly the declared required size
(`atol(buf) + 1`); against a service that declares the same required size
`S > 8192` on every attempt regardless of capacity, the protocol performs
exactly 2 attempts: one at the initial capacity 8192, one at exactly `S`. -/
theorem adminQuery_constant_service_two_attempts (S : Nat) (svc : Nat → Nat)
    (hS : 8192 < S) (hsvc : ∀ len, svc len + 1 = S) :
    (adminQuery svc (fun _ => true)).2 = [8192, S] ∧
    (∀ fuel len, 4 ≤ svc len + 1 → len < svc len + 1 →
      (adminLoop svc (fun _ => true) (fuel+1) len).2 =
        len :: (adminLoop svc (fun _ => true) fuel (svc len + 1)).2) := by
  constructor
  · have h2 : adminLoop svc (fun _ => true) 32 S = (.live S, [S]) := by
      have h32 : (32 : Nat) = 31 + 1 := by norm_num
      rw [h32, adminLoop_succ, hsvc S]
      simp only [if_true]
      rw [if_neg (by omega), if_pos (le_refl S)]
    have h1 : adminLoop svc (fun _ => true) 33 8192 = (.live S, [8192, S]) := by
      have h33 : (33 : Nat) = 32 + 1 := by norm_num
      rw [h33, adminLoop_succ, hsvc 8192]
      simp only [if_true]
      rw [if_neg (by omega), if_neg (by omega), h2]
    simp [adminQuery, h1]
  · intro fuel len h4 hlt
    rw [adminLoop_succ]
    simp only [if_true]
    rw [if_neg (by omega), if_neg (by omega)]

/-- Witness for C4 at `S = 10000`. -/
theorem adminQuery_constant_service_two_attempts_witness :
    (adminQuery (fun _ => 9999) (fun _ => true)).2 = [8192, 10000] :=
  (adminQuery_constant_service_two_attempts 10000 (fun _ => 9999)
    (by norm_num) (fun _ => rfl)).1

/-- C5 counterexample: with a service whose response carries the degenerate
leading count 0 (so `ret = atol(buf) + 1 = 1 < 4`), the protocol stops after
the first attempt with `buf == NULL` — and the subsequent `if (!buf)` check
then runs `perror("failed to read data"); exit(EXIT_FAILURE)`.  The process
exits nonzero, contrary to the claim that the degenerate case is not among the
conditions that make the process exit nonzero. -/
theorem adminQuery_degenerate_fatal_cex :
    (adminQuery (fun _ => 0) (fun _ => true)).1 = .fatal ∧
    (adminQuery (fun _ => 0) (fun _ => true)).2 = [8192] ∧
    adminExitCode (adminQuery (fun _ => 0) (fun _ => true)).1 = some 1 := by
  refine ⟨rfl, rfl, rfl⟩

/-- C5 amended: whenever the first attempt parses a degenerate leading count
(`atol(buf) + 1 < 4`), the retry loop stops immediately with no further
attempts and a `NULL` buffer, and the process then exits nonzero through the
same `if (!buf)` / `"failed to read data"` path that also catches an
allocation failure; only a live (accepted) buffer reaches the normal
output-and-exit-0 path. -/
theorem adminQuery_degenerate_is_fatal :
    (∀ (svc : Nat → Nat) (alloc : Nat → Bool), alloc 8192 = true →
      svc 8192 + 1 < 4 →
      (adminQuery svc alloc).1 = .fatal ∧ (adminQuery svc alloc).2 = [8192] ∧
      adminExitCode (adminQuery svc alloc).1 = some 1) ∧
    (∀ (svc : Nat → Nat) (alloc : Nat → Bool), alloc 8192 = false →
      (adminQuery svc alloc).1 = .fatal) ∧
    (∀ r, adminExitCode r = some 0 ↔ ∃ l, r = .ok l) := by
  refine ⟨?_, ?_, ?_⟩
  · intro svc alloc halloc hdeg
    have h : adminLoop svc alloc 33 8192 = (.null, [8192]) := by
      have h33 : (33 : Nat) = 32 + 1 := by norm_num
      rw [h33, adminLoop_succ, halloc]
      simp only [if_true]
      rw [if_pos hdeg]
    refine ⟨?_, ?_, ?_⟩ <;> simp [adminQuery, h, adminExitCode]
  · intro svc alloc halloc
    have h : adminLoop svc alloc 33 8192 = (.null, []) := by
      have h33 : (33 : Nat) = 32 + 1 := by norm_num
      rw [h33, adminLoop_succ, halloc]
      simp
    simp [adminQuery, h]
  · intro r
    cases r <;> simp [adminExitCode]

/-- C7: with no output pathname configured, `rotateLogs` leaves all state
unchanged regardless of any configured threshold; and a configuration with a
rotation threshold but no pathname is rejected with a usage error before the
sink is created. -/
theorem rotate_requires_pathname :
    (∀ (faults : String → Bool) (openOk : Bool) (s : SinkState),
      s.outputFileName = none → rotateLogs faults openOk s = some (s, [])) ∧
    (∀ (c : Config) (fs : Fs) (openOk : Bool),
      c.logRotateSizeKBytes ≠ 0 → c.outputFileName = none →
      setupPhase c fs openOk = .usageError) := by
  constructor
  · intro faults openOk s h
    unfold rotateLogs
    rw [h]
  · intro c fs openOk h1 h2
    unfold setupPhase
    rw [if_pos ⟨h1, h2⟩]

/-- Witness for C7: a stdout sink with a threshold configured, and the `-r`
without `-f` configuration. -/
theorem rotate_requires_pathname_witness :
    rotateLogs (fun _ => false) true (⟨none, 16, 4, fun _ => none, [], 0⟩ : SinkState)
      = some (⟨none, 16, 4, fun _ => none, [], 0⟩, []) ∧
    setupPhase ⟨none, 16, 4⟩ (fun _ => none) true = .usageError :=
  ⟨rotate_requires_pathname.1 (fun _ => false) true _ rfl,
   rotate_requires_pathname.2 ⟨none, 16, 4⟩ (fun _ => none) true (by norm_num) rfl⟩

/-- C2: one `rotateLogs` call with `maxBackups = k ≥ 1`: the zero-pad width is
the decimal digit count of `k`; the attempted renames are exactly
`name.(i-1) → name.i` (the bare name when `i-1 = 0`) for `i = k` down to `1`,
for every file system and fault pattern (missing sources and failed renames
never abort the shift); a non-`ENOENT` rename failure is reported once per
faulted source; in a fault-free run with all sources present each `name.i`
afterwards holds what `name.(i-1)` held, a fresh empty file is open at the
bare pathname, the byte counter is 0; failing to open the new file is fatal. -/
theorem rotateLogs_numbered_backup_shift (base : String) (s : SinkState) (k : Nat)
    (hk : 1 ≤ k) (hname : s.outputFileName = some base)
    (hmax : s.maxRotatedLogs = k)
    (hsrc : ∀ i, 1 ≤ i → i ≤ k →
      (s.fs (srcName base (maxRotationCountDigits k) i)).isSome) :
    maxRotationCountDigits k = (Nat.digits 10 k).length ∧
    (∀ (faults : String → Bool) (fs : Fs),
      (rotateShift faults base (maxRotationCountDigits k) k fs).2.2 =
        (List.range k).reverse.map (fun j =>
          (srcName base (maxRotationCountDigits k) (j+1),
           rotName base (maxRotationCountDigits k) (j+1)))) ∧
    (∀ (faults : String → Bool) (fs : Fs),
      (rotateShift faults base (maxRotationCountDigits k) k fs).2.1 =
        ((List.range k).reverse.filter (fun j =>
          faults (srcName base (maxRotationCountDigits k) (j+1)))).map
            (fun _ => "while rotating log files")) ∧
    (∃ s', rotateLogs (fun _ => false) true s = some (s', []) ∧
      s'.outByteCount = 0 ∧ s'.fs base = some [] ∧
      (∀ i, 1 ≤ i → i ≤ k →
        s'.fs (rotName base (maxRotationCountDigits k) i) =
          s.fs (srcName base (maxRotationCountDigits k) i))) ∧
    rotateLogs (fun _ => false) false s = none := by
  subst hmax
  refine ⟨?_, ?_, ?_, ?_, ?_⟩
  · rw [Nat.digits_len 10 s.maxRotatedLogs (by norm_num) (by omega)]
    unfold maxRotationCountDigits
    rw [if_pos (by omega)]
  · intro faults fs
    exact rotateShift_attempts faults base _ s.maxRotatedLogs fs
  · intro faults fs
    exact rotateShift_errs faults base _ s.maxRotatedLogs fs
  · obtain ⟨HC1, HC2⟩ :=
      rotateShift_content base (maxRotationCountDigits s.maxRotatedLogs)
        s.maxRotatedLogs s.fs hsrc
    refine ⟨{ s with
        fs := openCreate
          (rotateShift (fun _ => false) base (maxRotationCountDigits s.maxRotatedLogs)
            s.maxRotatedLogs s.fs).1 base,
        outByteCount := 0 }, ?_, rfl, ?_, ?_⟩
    · rw [rotateLogs_eq (fun _ => false) true s base hname]
      rw [rotateShift_errs]
      simp
    · show openCreate
        (rotateShift (fun _ => false) base (maxRotationCountDigits s.maxRotatedLogs)
          s.maxRotatedLogs s.fs).1 base base = some []
      unfold openCreate
      rw [if_pos rfl, HC2 hk]
      rfl
    · intro i hi1 hik
      show openCreate
        (rotateShift (fun _ => false) base (maxRotationCountDigits s.maxRotatedLogs)
          s.maxRotatedLogs s.fs).1 base
          (rotName base (maxRotationCountDigits s.maxRotatedLogs) i) =
        s.fs (srcName base (maxRotationCountDigits s.maxRotatedLogs) i)
      unfold openCreate
      rw [if_neg (Ne.symm (base_ne_rotName base _ i))]
      exact HC1 i hi1 hik
  · rw [rotateLogs_eq (fun _ => false) false s base hname]
    rfl

/-- Witness for C2: `out` with two backups over a file system where every
name exists. -/
theorem rotateLogs_numbered_backup_shift_witness :
    maxRotationCountDigits 2 = (Nat.digits 10 2).length ∧
    (∀ (faults : String → Bool) (fs : Fs),
      (rotateShift faults "out" (maxRotationCountDigits 2) 2 fs).2.2 =
        (List.range 2).reverse.map (fun j =>
          (srcName "out" (maxRotationCountDigits 2) (j+1),
           rotName "out" (maxRotationCountDigits 2) (j+1)))) ∧
    (∀ (faults : String → Bool) (fs : Fs),
      (rotateShift faults "out" (maxRotationCountDigits 2) 2 fs).2.1 =
        ((List.range 2).reverse.filter (fun j =>
          faults (srcName "out" (maxRotationCountDigits 2) (j+1)))).map
            (fun _ => "while rotating log files")) ∧
    (∃ s', rotateLogs (fun _ => false) true sinkOutFixture = some (s', []) ∧
      s'.outByteCount = 0 ∧ s'.fs "out" = some [] ∧
      (∀ i, 1 ≤ i → i ≤ 2 →
        s'.fs (rotName "out" (maxRotationCountDigits 2) i) =
          sinkOutFixture.fs (srcName "out" (maxRotationCountDigits 2) i))) ∧
    rotateLogs (fun _ => false) false sinkOutFixture = none :=
  rotateLogs_numbered_backup_shift "out" sinkOutFixture 2 (by norm_num) rfl rfl
    (fun _ _ _ => rfl)

/-- C1: for a printed formatted record while a rotation policy is configured,
the write of the record happens before the byte counter is compared against
the threshold: rotation is triggered exactly when
`(counter + line bytes) / 1024 >= thresholdKB`, and in that case the
triggering record's bytes sit at the end of the file that was rotated away to
`name.1`, while the freshly opened bare file is empty. -/
theorem processBuffer_write_before_rotate (r : RecordF) (s : SinkState)
    (base : String) (cur : List Nat) (hname : s.outputFileName = some base)
    (hdec : r.decodeOk = true) (hpr : r.shouldPrint = true)
    (hk : 1 ≤ s.maxRotatedLogs) (hcur : s.fs base = some cur) :
    (0 < s.logRotateSizeKBytes ∧
        s.logRotateSizeKBytes ≤ (s.outByteCount + r.line.length) / 1024 →
      ∃ s', processBuffer (fun _ => false) true r s = some (s', true) ∧
        s'.fs (rotName base (maxRotationCountDigits s.maxRotatedLogs) 1) =
          some (cur ++ r.line) ∧
        s'.fs base = some [] ∧ s'.outByteCount = 0) ∧
    (¬ (0 < s.logRotateSizeKBytes ∧
        s.logRotateSizeKBytes ≤ (s.outByteCount + r.line.length) / 1024) →
      ∃ s', processBuffer (fun _ => false) true r s = some (s', false) ∧
        s'.fs base = some (cur ++ r.line) ∧
        s'.outByteCount = s.outByteCount + r.line.length) := by
  have e0 : ({ writeOut s r.line with
      outByteCount := s.outByteCount + r.line.length } : SinkState).fs
        = (writeOut s r.line).fs := rfl
  have e1 : ({ writeOut s r.line with
      outByteCount := s.outByteCount + r.line.length } : SinkState).outputFileName
        = (writeOut s r.line).outputFileName := rfl
  have e2 : ({ writeOut s r.line with
      outByteCount := s.outByteCount + r.line.length } : SinkState).maxRotatedLogs
        = (writeOut s r.line).maxRotatedLogs := rfl
  have hname2 : ({ writeOut s r.line with
      outByteCount := s.outByteCount + r.line.length } : SinkState).outputFileName
        = some base := by
    rw [e1, writeOut_outputFileName, hname]
  have hwbase : (writeOut s r.line).fs base = some (cur ++ r.line) := by
    rw [writeOut_fs_base s r.line base hname, hcur]
    rfl
  have hpb : processBuffer (fun _ => false) true r s =
      (if 0 < s.logRotateSizeKBytes ∧
          s.logRotateSizeKBytes ≤ (s.outByteCount + r.line.length) / 1024 then
        match rotateLogs (fun _ => false) true
            { writeOut s r.line with
              outByteCount := s.outByteCount + r.line.length } with
        | none => none
        | some p => some (p.1, true)
      else some ({ writeOut s r.line with
          outByteCount := s.outByteCount + r.line.length }, false)) := by
    unfold processBuffer
    simp only [hdec, hpr, if_true, writeOut_outByteCount, writeOut_logRotate]
  obtain ⟨hm1, hm2⟩ := rotateShift_base_moved base
    (maxRotationCountDigits s.maxRotatedLogs) s.maxRotatedLogs
    (writeOut s r.line).fs (cur ++ r.line) hk hwbase
  constructor
  · intro hcond
    rw [hpb, if_pos hcond,
      rotateLogs_eq (fun _ => false) true _ base hname2, if_pos rfl]
    refine ⟨_, rfl, ?_, ?_, rfl⟩
    · show openCreate _ base (rotName base _ 1) = some (cur ++ r.line)
      unfold openCreate
      rw [if_neg (Ne.symm (base_ne_rotName base _ 1))]
      rw [e0, e2, writeOut_maxRotated]
      exact hm1
    · show openCreate _ base base = some []
      unfold openCreate
      rw [if_pos rfl, e0, e2, writeOut_maxRotated, hm2]
      rfl
  · intro hcond
    rw [hpb, if_neg hcond]
    refine ⟨_, rfl, ?_, rfl⟩
    rw [e0]
    exact hwbase

/-- Witness for C1: a 1 KB threshold with 2000 bytes accounted and a 1-byte
line — rotation triggers and the line lands in `out.1`. -/
theorem processBuffer_write_before_rotate_witness :
    ∃ s', processBuffer (fun _ => false) true ⟨true, true, [3]⟩ sinkRotFixture
        = some (s', true) ∧
      s'.fs (rotName "out" (maxRotationCountDigits sinkRotFixture.maxRotatedLogs) 1)
        = some ([7] ++ [3]) ∧
      s'.fs "out" = some [] ∧ s'.outByteCount = 0 :=
  (processBuffer_write_before_rotate ⟨true, true, [3]⟩ sinkRotFixture "out" [7]
    rfl rfl rfl (by decide) rfl).1 ⟨by decide, by decide⟩

/-- C9 counterexample: the registration sequence `-b main -b main` yields a
registry whose names are not unique — explicit `-b` selections append without
de-duplication (lines 484-495). -/
theorem registry_dup_name_cex :
    ¬ (registryNames
        (buildRegistry [BSelection.name "main", BSelection.name "main"]).1).Nodup := by
  decide

/-- C9 amended: `-b all` and the default set each yield a registry with unique
channel names (and any selection sequence ending in `all` does); but an
explicit `-b name` selection is appended unconditionally, so repeating a name
yields duplicates. -/
theorem registry_names_unique_amended :
    (registryNames selectAllDevs).Nodup ∧
    (registryNames defaultDevs).Nodup ∧
    (∀ init : List BSelection,
      (registryNames (buildRegistry (init ++ [BSelection.all])).1).Nodup) ∧
    (∀ (devs : List LogDev) (cnt : Nat) (s : String),
      applyBSelection (devs, cnt) (.name s) =
        (devs ++ [⟨s, s == "events", false⟩], cnt + 1)) := by
  refine ⟨by decide, by decide, ?_, fun devs cnt s => rfl⟩
  intro init
  have h : ∀ p : List LogDev × Nat,
      List.foldl applyBSelection p [BSelection.all] =
        (selectAllDevs, selectAllDevs.length) := by
    intro p
    cases p
    rfl
  simp only [buildRegistry, List.foldl_append]
  rw [h]
  decide

/-- Witness for C9's amended theorem. -/
theorem registry_names_unique_amended_witness :
    (registryNames (buildRegistry [BSelection.name "radio", BSelection.all]).1).Nodup ∧
    applyBSelection ([], 0) (.name "events") = ([⟨"events", true, false⟩], 1) := by
  constructor
  · exact registry_names_unique_amended.2.2.1 [BSelection.name "radio"]
  · have h := registry_names_unique_amended.2.2.2 [] 0 "events"
    simpa using h

theorem maybePrintStart_binary (pd : Bool) (st : LoopState) (dref : DevRef) :
    (maybePrintStart true pd st dref).sink = st.sink ∧
    (maybePrintStart true pd st dref).rotations = st.rotations := by
  unfold maybePrintStart
  split
  · rw [if_neg (by simp)]
    cases dref <;> exact ⟨rfl, rfl⟩
  · exact ⟨rfl, rfl⟩

theorem loopStep_binary (pd : Bool) (faults : String → Bool) (ok : Bool)
    (st : LoopState) (r : Record) :
    ∃ st2, loopStep true pd faults ok st r = some st2 ∧
      st2.sink = printBinaryRec r.raw st.sink ∧
      st2.rotations = st.rotations := by
  unfold loopStep
  cases h : resolveOwner st.devices r.id with
  | some i =>
    dsimp only
    rw [if_pos rfl]
    by_cases hl : st.lastDev ≠ some (DevRef.reg i)
    · rw [if_pos hl]
      refine ⟨_, rfl, ?_, ?_⟩
      · exact congrArg (printBinaryRec r.raw)
          (maybePrintStart_binary pd _ (DevRef.reg i)).1
      · exact (maybePrintStart_binary pd _ (DevRef.reg i)).2
    · rw [if_neg hl]
      exact ⟨_, rfl, rfl, rfl⟩
  | none =>
    dsimp only
    rw [if_pos rfl]
    by_cases hl : ({ st with devCount := 2 } : LoopState).lastDev ≠
        some DevRef.unexpected
    · rw [if_pos hl]
      refine ⟨_, rfl, ?_, ?_⟩
      · exact congrArg (printBinaryRec r.raw)
          (maybePrintStart_binary pd _ DevRef.unexpected).1
      · exact (maybePrintStart_binary pd _ DevRef.unexpected).2
    · rw [if_neg hl]
      exact ⟨_, rfl, rfl, rfl⟩

/-- C8: in binary pass-through mode every record is written raw (its wire
length field included, no filtering) in arrival order, the rotation byte
counter never changes, and rotation is never triggered — for any fault
pattern, rotation threshold and backup count. -/
theorem binary_mode_never_rotates (pd : Bool) (faults : String → Bool)
    (ok : Bool) (base : String) :
    ∀ (rs : List Record) (st : LoopState) (old : List Nat),
      st.sink.outputFileName = some base → st.sink.fs base = some old →
      ∃ st', runLoop true pd faults ok st rs = some st' ∧
        st'.sink.outByteCount = st.sink.outByteCount ∧
        st'.rotations = st.rotations ∧
        st'.sink.outputFileName = some base ∧
        st'.sink.fs base = some (old ++ (rs.map Record.raw).flatten) := by
  intro rs
  induction rs with
  | nil =>
    intro st old hname hfs
    exact ⟨st, rfl, rfl, rfl, hname, by simpa using hfs⟩
  | cons r rs ih =>
    intro st old hname hfs
    obtain ⟨st2, hstep, hsink, hrot⟩ := loopStep_binary pd faults ok st r
    have hname2 : st2.sink.outputFileName = some base := by
      rw [hsink]
      unfold printBinaryRec
      rw [writeOut_outputFileName]
      exact hname
    have hfs2 : st2.sink.fs base = some (old ++ r.raw) := by
      rw [hsink]
      unfold printBinaryRec
      rw [writeOut_fs_base _ _ base hname, hfs]
      rfl
    obtain ⟨st', hrun, hcnt, hrots, hn', hf'⟩ := ih st2 (old ++ r.raw) hname2 hfs2
    refine ⟨st', ?_, ?_, ?_, hn', ?_⟩
    · simp only [runLoop, hstep]
      exact hrun
    · rw [hcnt, hsink]
      unfold printBinaryRec
      rw [writeOut_outByteCount]
    · rw [hrots, hrot]
    · rw [hf']
      simp [List.append_assoc]

/-- Witness for C8: two raw records in binary mode over a registry of two
text channels with a rotation threshold configured. -/
theorem binary_mode_never_rotates_witness :
    ∃ st', runLoop true false (fun _ => false) true
        ⟨[⟨"main", false, false⟩, ⟨"system", false, false⟩], false, none, 2,
          ⟨some "out", 1, 4, fun n => if n = "out" then some [9] else none, [], 2000⟩,
          [], 0⟩
        [⟨.mainBuf, [1, 2], ⟨true, true, [5]⟩⟩, ⟨.systemBuf, [3], ⟨true, true, [6]⟩⟩]
        = some st' ∧
      st'.sink.outByteCount =
        (⟨[⟨"main", false, false⟩, ⟨"system", false, false⟩], false, none, 2,
          ⟨some "out", 1, 4, fun n => if n = "out" then some [9] else none, [], 2000⟩,
          [], 0⟩ : LoopState).sink.outByteCount ∧
      st'.rotations =
        (⟨[⟨"main", false, false⟩, ⟨"system", false, false⟩], false, none, 2,
          ⟨some "out", 1, 4, fun n => if n = "out" then some [9] else none, [], 2000⟩,
          [], 0⟩ : LoopState).rotations ∧
      st'.sink.outputFileName = some "out" ∧
      st'.sink.fs "out" = some ([9] ++
        (([⟨.mainBuf, [1, 2], ⟨true, true, [5]⟩⟩,
           ⟨.systemBuf, [3], ⟨true, true, [6]⟩⟩] : List Record).map Record.raw).flatten) :=
  binary_mode_never_rotates false (fun _ => false) true "out" _ _ [9] rfl (by simp)

theorem setPrinted_banners (st : LoopState) (dref : DevRef) :
    (setPrinted st dref).banners = st.banners := by
  cases dref <;> rfl

/-- Characterization of `maybePrintStart`'s banner output: a banner is
appended exactly when (unannounced or dividers forced) and more than one
channel is in play and the session is not in binary pass-through mode; the
banner is a "beginning of" one when the channel was unannounced and a
"switch to" one otherwise. -/
theorem maybePrintStart_banners (pb pd : Bool) (st : LoopState) (dref : DevRef) :
    (maybePrintStart pb pd st dref).banners =
      if (devPrinted st dref = false ∨ pd = true) ∧ 1 < st.devCount ∧ pb = false
      then st.banners ++ [(devPrinted st dref, devName st dref)]
      else st.banners := by
  unfold maybePrintStart
  by_cases h1 : devPrinted st dref = false ∨ pd = true
  · rw [if_pos h1]
    by_cases h2 : 1 < st.devCount ∧ pb = false
    · rw [if_pos h2, setPrinted_banners, if_pos ⟨h1, h2⟩]
    · rw [if_neg h2, setPrinted_banners, if_neg (fun hc => h2 hc.2)]
  · rw [if_neg h1, if_neg (fun hc => h1 hc.1)]

/-- C6 counterexample: two registered channels, `printDividers` (the
`forceEveryTime` flag) set, formatted mode, and two consecutive records from
`main`: only one banner is emitted, not one per record — `maybePrintStart` is
only reached on attribution switches (`dev != d`, line 874). -/
theorem banner_every_record_cex :
    ∃ st', runLoop false true (fun _ => false) true cexTwoChan [recMain, recMain]
        = some st' ∧
      st'.banners = [(false, "main")] ∧ ¬ st'.banners.length = 2 := by
  refine ⟨_, rfl, rfl, by decide⟩

/-- C6 amended: a banner is emitted only when more than one channel is in
play and only in formatted mode; an unannounced channel gets "beginning of",
an announced one "switch to"; with `forceEveryTime` set a banner is emitted
on every attribution switch even for an already-announced channel — but a
record from the channel already attributed does not call the tracker, so
consecutive records from one channel emit no further banner. -/
theorem banner_emission_amended :
    (∀ (pb pd : Bool) (st : LoopState) (dref : DevRef),
      (maybePrintStart pb pd st dref).banners =
        if (devPrinted st dref = false ∨ pd = true) ∧ 1 < st.devCount ∧ pb = false
        then st.banners ++ [(devPrinted st dref, devName st dref)]
        else st.banners) ∧
    (∀ (pb pd : Bool) (faults : String → Bool) (ok : Bool) (st : LoopState)
        (r : Record) (i : Nat) (st' : LoopState),
      resolveOwner st.devices r.id = some i → st.lastDev = some (.reg i) →
      loopStep pb pd faults ok st r = some st' → st'.banners = st.banners) ∧
    (∀ (pd : Bool) (faults : String → Bool) (ok : Bool) (st : LoopState)
        (r : Record) (i : Nat) (st' : LoopState),
      resolveOwner st.devices r.id = some i → st.lastDev ≠ some (.reg i) →
      1 < st.devCount → (devPrinted st (.reg i) = false ∨ pd = true) →
      loopStep false pd faults ok st r = some st' →
      st'.banners = st.banners ++ [(devPrinted st (.reg i), devName st (.reg i))]) := by
  refine ⟨maybePrintStart_banners, ?_, ?_⟩
  · intro pb pd faults ok st r i st' hres hlast hstep
    unfold loopStep at hstep
    rw [hres] at hstep
    dsimp only at hstep
    rw [hlast] at hstep
    rw [if_neg (show ¬(some (DevRef.reg i) ≠ some (DevRef.reg i)) by simp)] at hstep
    cases pb with
    | true =>
      rw [if_pos (show (true : Bool) = true from rfl)] at hstep
      cases Option.some.inj hstep
      rfl
    | false =>
      rw [if_neg (show ¬((false : Bool) = true) by simp)] at hstep
      cases hp : processBuffer faults ok r.fmt st.sink with
      | none => rw [hp] at hstep; cases hstep
      | some p =>
        rw [hp] at hstep
        cases Option.some.inj hstep
        rfl
  · intro pd faults ok st r i st' hres hlast hcnt hfirst hstep
    unfold loopStep at hstep
    rw [hres] at hstep
    dsimp only at hstep
    rw [if_pos hlast] at hstep
    rw [if_neg (by simp)] at hstep
    cases hp : processBuffer faults ok r.fmt
        (maybePrintStart false pd { st with lastDev := some (DevRef.reg i) }
          (DevRef.reg i)).sink with
    | none => rw [hp] at hstep; cases hstep
    | some p =>
      rw [hp] at hstep
      cases Option.some.inj hstep
      show (maybePrintStart false pd { st with lastDev := some (DevRef.reg i) }
        (DevRef.reg i)).banners = _
      rw [maybePrintStart_banners]
      rw [if_pos ⟨hfirst, hcnt, rfl⟩]
      rfl

/-- Witness for C6's amended theorem: the banner characterization at a
concrete suppressed call, a same-channel record emitting nothing, and a
switch with dividers forced emitting a switch banner. -/
theorem banner_emission_amended_witness :
    ((maybePrintStart true true stSolo (DevRef.reg 0)).banners =
      if (devPrinted stSolo (DevRef.reg 0) = false ∨ true = true) ∧
          1 < stSolo.devCount ∧ true = false
      then stSolo.banners ++
        [(devPrinted stSolo (DevRef.reg 0), devName stSolo (DevRef.reg 0))]
      else stSolo.banners) ∧
    (∃ st', loopStep false true (fun _ => false) true stAfterMain recMain
        = some st' ∧ st'.banners = stAfterMain.banners) ∧
    (∃ st', loopStep false true (fun _ => false) true stAfterMain
        ⟨.systemBuf, [], ⟨true, false, []⟩⟩ = some st' ∧
      st'.banners = stAfterMain.banners ++
        [(devPrinted stAfterMain (.reg 1), devName stAfterMain (.reg 1))]) := by
  refine ⟨banner_emission_amended.1 true true stSolo (DevRef.reg 0), ⟨_, rfl, ?_⟩,
    ⟨_, rfl, ?_⟩⟩
  · exact banner_emission_amended.2.1 false true (fun _ => false) true stAfterMain
      recMain 0 _ rfl rfl rfl
  · exact banner_emission_amended.2.2 true (fun _ => false) true stAfterMain
      ⟨.systemBuf, [], ⟨true, false, []⟩⟩ 1 _ rfl (by decide) (by decide)
      (Or.inl rfl) rfl

theorem markPrinted_get_ne : ∀ (l : List LogDev) (i j : Nat), j ≠ i →
    (markPrinted l i).get? j = l.get? j
  | [], _, _, _ => rfl
  | _ :: _, 0, 0, h => absurd rfl h
  | _ :: _, 0, _+1, _ => rfl
  | _ :: _, _+1, 0, _ => rfl
  | _ :: ds, i+1, j+1, h =>
    markPrinted_get_ne ds i j (fun hc => h (by rw [hc]))

theorem markPrinted_get_self : ∀ (l : List LogDev) (i : Nat),
    (markPrinted l i).get? i =
      (l.get? i).map (fun d => ⟨d.device, d.binary, true⟩)
  | [], _ => rfl
  | _ :: _, 0 => rfl
  | _ :: ds, i+1 => markPrinted_get_self ds i

theorem devPrinted_setPrinted_self (st : LoopState) (dref : DevRef)
    (h : drefValid st dref) : devPrinted (setPrinted st dref) dref = true := by
  cases dref with
  | unexpected => rfl
  | reg i =>
    show (((markPrinted st.devices i).get? i).map LogDev.printed).getD false = true
    rw [markPrinted_get_self]
    cases hg : st.devices.get? i with
    | none =>
      rw [List.get?_eq_none] at hg
      have h' : i < st.devices.length := h
      omega
    | some d => rfl

theorem allNamedPrinted_setPrinted (nm : String) (st : LoopState)
    (dref : DevRef) (hP : allNamedPrinted nm st) :
    allNamedPrinted nm (setPrinted st dref) := by
  cases dref with
  | unexpected => exact ⟨hP.1, fun _ => rfl⟩
  | reg i =>
    refine ⟨?_, hP.2⟩
    intro j d hg hn
    have hg' : (markPrinted st.devices i).get? j = some d := hg
    by_cases hji : j = i
    · subst hji
      rw [markPrinted_get_self] at hg'
      cases hg2 : st.devices.get? j with
      | none => rw [hg2] at hg'; cases hg'
      | some d0 =>
        rw [hg2] at hg'
        cases Option.some.inj hg'
        rfl
    · rw [markPrinted_get_ne st.devices i j hji] at hg'
      exact hP.1 j d hg' hn

theorem allNamedPrinted_maybePrintStart (nm : String) (pb pd : Bool)
    (st : LoopState) (dref : DevRef) (hP : allNamedPrinted nm st) :
    allNamedPrinted nm (maybePrintStart pb pd st dref) := by
  unfold maybePrintStart
  split
  · split
    · exact allNamedPrinted_setPrinted nm _ dref ⟨hP.1, hP.2⟩
    · exact allNamedPrinted_setPrinted nm st dref hP
  · exact hP

theorem devPrinted_of_name (nm : String) (hnm : nm ≠ "") (st : LoopState)
    (dref : DevRef) (hP : allNamedPrinted nm st)
    (hname : devName st dref = nm) : devPrinted st dref = true := by
  cases dref with
  | unexpected => exact hP.2 hname.symm
  | reg i =>
    cases hg : st.devices.get? i with
    | none =>
      exfalso
      apply hnm
      have hempty : devName st (.reg i) = "" := by
        show ((st.devices.get? i).map LogDev.device).getD "" = ""
        rw [hg]
        rfl
      rw [hempty] at hname
      exact hname.symm
    | some d =>
      have hdev : d.device = nm := by
        have hdn : devName st (.reg i) = d.device := by
          show ((st.devices.get? i).map LogDev.device).getD "" = d.device
          rw [hg]
          rfl
        rw [hdn] at hname
        exact hname
      have hpr := hP.1 i d hg hdev
      show ((st.devices.get? i).map LogDev.printed).getD false = true
      rw [hg]
      exact hpr

theorem maybePrintStart_no_new_beginning (nm : String) (hnm : nm ≠ "")
    (pb pd : Bool) (st : LoopState) (dref : DevRef)
    (hP : allNamedPrinted nm st)
    (hmem : (false, nm) ∈ (maybePrintStart pb pd st dref).banners) :
    (false, nm) ∈ st.banners := by
  rw [maybePrintStart_banners] at hmem
  split at hmem
  · rcases List.mem_append.mp hmem with h | h
    · exact h
    · exfalso
      have he := List.mem_singleton.mp h
      have h1 := congrArg Prod.fst he
      have h2 := congrArg Prod.snd he
      simp only at h1 h2
      have := devPrinted_of_name nm hnm st dref hP h2.symm
      rw [this] at h1
      cases h1
  · exact hmem

theorem loopStep_tail_no_beginning (nm : String) (pb : Bool)
    (faults : String → Bool) (ok : Bool) (r : Record) (stM st' : LoopState)
    (hP2 : allNamedPrinted nm stM)
    (hstep : (if pb = true
        then some { stM with sink := printBinaryRec r.raw stM.sink }
        else
          match processBuffer faults ok r.fmt stM.sink with
          | none => none
          | some p =>
            some
              { stM with
                sink := p.1,
                rotations := stM.rotations + (if p.2 = true then 1 else 0) })
        = some st') :
    allNamedPrinted nm st' ∧ st'.banners = stM.banners := by
  cases pb with
  | true =>
    rw [if_pos (show (true : Bool) = true from rfl)] at hstep
    cases Option.some.inj hstep
    exact ⟨⟨hP2.1, hP2.2⟩, rfl⟩
  | false =>
    rw [if_neg (show ¬((false : Bool) = true) by simp)] at hstep
    cases hp : processBuffer faults ok r.fmt stM.sink with
    | none => rw [hp] at hstep; cases hstep
    | some p =>
      rw [hp] at hstep
      cases Option.some.inj hstep
      exact ⟨⟨hP2.1, hP2.2⟩, rfl⟩

theorem loopStep_no_beginning (nm : String) (hnm : nm ≠ "") (pb pd : Bool)
    (faults : String → Bool) (ok : Bool) (st : LoopState) (r : Record)
    (st' : LoopState) (hP : allNamedPrinted nm st)
    (hstep : loopStep pb pd faults ok st r = some st') :
    allNamedPrinted nm st' ∧
    ((false, nm) ∈ st'.banners → (false, nm) ∈ st.banners) := by
  unfold loopStep at hstep
  cases hres : resolveOwner st.devices r.id with
  | some i =>
    rw [hres] at hstep
    dsimp only at hstep
    by_cases hl : st.lastDev ≠ some (DevRef.reg i)
    · rw [if_pos hl] at hstep
      have hP2 := allNamedPrinted_maybePrintStart nm pb pd
        { st with lastDev := some (DevRef.reg i) } (DevRef.reg i) ⟨hP.1, hP.2⟩
      obtain ⟨hPf, hBf⟩ := loopStep_tail_no_beginning nm pb faults ok r _ st' hP2 hstep
      refine ⟨hPf, fun hm => ?_⟩
      rw [hBf] at hm
      exact maybePrintStart_no_new_beginning nm hnm pb pd
        { st with lastDev := some (DevRef.reg i) } (DevRef.reg i)
        ⟨hP.1, hP.2⟩ hm
    · rw [if_neg hl] at hstep
      obtain ⟨hPf, hBf⟩ := loopStep_tail_no_beginning nm pb faults ok r st st' hP hstep
      exact ⟨hPf, fun hm => hBf ▸ hm⟩
  | none =>
    rw [hres] at hstep
    dsimp only at hstep
    by_cases hl : ({ st with devCount := 2 } : LoopState).lastDev ≠
        some DevRef.unexpected
    · rw [if_pos hl] at hstep
      have hP2 := allNamedPrinted_maybePrintStart nm pb pd
        { st with devCount := 2, lastDev := some DevRef.unexpected }
        DevRef.unexpected ⟨hP.1, hP.2⟩
      obtain ⟨hPf, hBf⟩ := loopStep_tail_no_beginning nm pb faults ok r _ st' hP2 hstep
      refine ⟨hPf, fun hm => ?_⟩
      rw [hBf] at hm
      exact maybePrintStart_no_new_beginning nm hnm pb pd
        { st with devCount := 2, lastDev := some DevRef.unexpected }
        DevRef.unexpected ⟨hP.1, hP.2⟩ hm
    · rw [if_neg hl] at hstep
      obtain ⟨hPf, hBf⟩ := loopStep_tail_no_beginning nm pb faults ok r
        { st with devCount := 2 } st' ⟨hP.1, hP.2⟩ hstep
      exact ⟨⟨hPf.1, hPf.2⟩, fun hm => hBf ▸ hm⟩

theorem runLoop_no_beginning (nm : String) (hnm : nm ≠ "") (pb pd : Bool)
    (faults : String → Bool) (ok : Bool) :
    ∀ (rs : List Record) (st st' : LoopState), allNamedPrinted nm st →
      runLoop pb pd faults ok st rs = some st' →
      allNamedPrinted nm st' ∧
      ((false, nm) ∈ st'.banners → (false, nm) ∈ st.banners) := by
  intro rs
  induction rs with
  | nil =>
    intro st st' hP hrun
    cases Option.some.inj hrun
    exact ⟨hP, id⟩
  | cons r rs ih =>
    intro st st' hP hrun
    cases hstep : loopStep pb pd faults ok st r with
    | none =>
      simp only [runLoop, hstep] at hrun
      exact Option.noConfusion hrun
    | some stA =>
      simp only [runLoop, hstep] at hrun
      obtain ⟨hPA, hBA⟩ :=
        loopStep_no_beginning nm hnm pb pd faults ok st r stA hP hstep
      obtain ⟨hPf, hBf⟩ := ih stA st' hPA hrun
      exact ⟨hPf, fun hm => hBA (hBf hm)⟩

/-- C10: `maybePrintStart` marks the channel announced even when the banner
itself is suppressed (single-channel session or binary mode); a banner for an
already-announced channel can only be a "switch to" one; hence once every
device named `X` is marked announced and no "beginning of X" banner has been
emitted, no later record — the device count may grow meanwhile — ever emits
"beginning of X". -/
theorem suppressed_banner_marks_announced :
    (∀ (pb pd : Bool) (st : LoopState) (dref : DevRef),
      drefValid st dref → ¬(1 < st.devCount ∧ pb = false) →
      (maybePrintStart pb pd st dref).banners = st.banners ∧
      devPrinted (maybePrintStart pb pd st dref) dref = true) ∧
    (∀ (pb pd : Bool) (st : LoopState) (dref : DevRef),
      devPrinted st dref = true →
      (maybePrintStart pb pd st dref).banners = st.banners ∨
      (maybePrintStart pb pd st dref).banners =
        st.banners ++ [(true, devName st dref)]) ∧
    (∀ (nm : String) (pb pd : Bool) (faults : String → Bool) (ok : Bool)
        (rs : List Record) (st st' : LoopState),
      nm ≠ "" → allNamedPrinted nm st → (false, nm) ∉ st.banners →
      runLoop pb pd faults ok st rs = some st' →
      (false, nm) ∉ st'.banners) := by
  refine ⟨?_, ?_, ?_⟩
  · intro pb pd st dref hvalid hsup
    constructor
    · rw [maybePrintStart_banners, if_neg (fun hc => hsup hc.2)]
    · unfold maybePrintStart
      by_cases h1 : devPrinted st dref = false ∨ pd = true
      · rw [if_pos h1, if_neg hsup]
        exact devPrinted_setPrinted_self st dref hvalid
      · rw [if_neg h1]
        cases hb : devPrinted st dref with
        | false => exact absurd (Or.inl hb) h1
        | true => rfl
  · intro pb pd st dref hpr
    rw [maybePrintStart_banners]
    split
    · right
      rw [hpr]
    · left
      rfl
  · intro nm pb pd faults ok rs st st' hnm hP hnot hrun
    intro hmem
    exact hnot ((runLoop_no_beginning nm hnm pb pd faults ok rs st st' hP hrun).2 hmem)

/-- Witness for C10: a suppressed single-channel call still marks `main`
announced; a later multi-channel run prints "switch to main" and never
"beginning of main". -/
theorem suppressed_banner_marks_announced_witness :
    ((maybePrintStart false false stSolo (DevRef.reg 0)).banners = stSolo.banners ∧
      devPrinted (maybePrintStart false false stSolo (DevRef.reg 0))
        (DevRef.reg 0) = true) ∧
    ((maybePrintStart false true stAfterMain (DevRef.reg 0)).banners =
        stAfterMain.banners ∨
      (maybePrintStart false true stAfterMain (DevRef.reg 0)).banners =
        stAfterMain.banners ++ [(true, devName stAfterMain (DevRef.reg 0))]) ∧
    (∃ st', runLoop false true (fun _ => false) true stAnnounced [recMain]
        = some st' ∧
      st'.banners = [(false, "unexpected"), (true, "main")] ∧
      (false, "main") ∉ st'.banners) := by
  have hP : allNamedPrinted "main" stAnnounced := by
    constructor
    · intro i d hg hn
      cases i with
      | zero =>
        cases Option.some.inj hg
        rfl
      | succ i => cases hg
    · intro h
      exact absurd h (by decide)
  refine ⟨suppressed_banner_marks_announced.1 false false stSolo (DevRef.reg 0)
      (show (0 : Nat) < 1 by decide) (by decide),
    suppressed_banner_marks_announced.2.1 false true stAfterMain (DevRef.reg 0) rfl,
    ⟨_, rfl, rfl, ?_⟩⟩
  exact suppressed_banner_marks_announced.2.2 "main" false true (fun _ => false)
    true [recMain] stAnnounced _ (by decide) hP (by decide) rfl

/-- Witness for C5's amended theorem. -/
theorem adminQuery_degenerate_is_fatal_witness :
    (adminQuery (fun _ => 2) (fun _ => true)).1 = .fatal ∧
    (adminQuery (fun _ => 7) (fun _ => false)).1 = .fatal ∧
    adminExitCode (.ok 20) = some 0 := by
  refine ⟨(adminQuery_degenerate_is_fatal.1 (fun _ => 2) (fun _ => true)
      rfl (by norm_num)).1,
    adminQuery_degenerate_is_fatal.2.1 (fun _ => 7) (fun _ => false) rfl,
    (adminQuery_degenerate_is_fatal.2.2 (.ok 20)).mpr ⟨20, rfl⟩⟩

end Logcat
